import Mathlib

set_option maxRecDepth 8000

/-!
# A verification of the Flaze-web in-memory repository

Shallow embedding of the storage layer (`server/storage.ts`, class `MemStorage`)
of the Flaze-web repository, together with the entity shapes from
`shared/schema.ts` and, where a payload reaches the repository only through an
HTTP route, the zod-validated payload shape from `server/routes.ts`.

Modelling conventions:
* A JS `Map` keyed by a monotonically assigned numeric id is modelled as a
  `List` in insertion order; `Map.set` on an existing key keeps the entry at
  its original position, which is modelled by an in-place `List.map` replace,
  and `Map.delete` is modelled by `List.filter`.
* `undefined` versus present values are modelled with `Option`; the cart owner
  field, whose JS value space is `undefined | null | number` and where `===`
  distinguishes all three, gets a dedicated three-way type `OwnerId`.
* JS numbers that the program only ever uses as integers are modelled as
  `Nat`/`Int`; the single floating-point computation of the program
  (`(totalRating / approvedReviews.length).toFixed(1)`) is modelled exactly,
  by rounding the rational `total / count` to 53 binary digits
  (round-to-nearest, ties-to-even, as IEEE-754 binary64 division does for
  operands in the normal range) and then applying the ECMA-262 `toFixed(1)`
  rule (nearest multiple of 1/10, ties away from zero) to that binary value.
-/

/-- The JS value space of the cart owner field `userId`:
`undefined` (field absent), `null`, or a number.  JS `===` distinguishes all
three, which is what the cart-scope filters in `storage.ts` use. -/
inductive OwnerId where
  | undef : OwnerId
  | null : OwnerId
  | user (id : Int) : OwnerId
deriving DecidableEq, Repr

/-- `shared/schema.ts`: row type of the `products` table. -/
structure Product where
  id : Nat
  name : String
  description : String
  price : String
  image : String
  rating : String
  reviewCount : Int
  badge : Option String
  sizes : List String
  featured : Bool
deriving DecidableEq, Repr

/-- `shared/schema.ts`: `insertProductSchema` (all product columns except `id`;
`reviewCount`, `badge` and `featured` are optional because the columns have a
default or are nullable).  The badge field is tri-state: `none` means the key
is not provided, `some none` is an explicit `null`, `some (some s)` a string. -/
structure InsertProduct where
  name : String
  description : String
  price : String
  image : String
  rating : String
  reviewCount : Option Int
  badge : Option (Option String)
  sizes : List String
  featured : Option Bool
deriving DecidableEq, Repr

/-- `Partial<InsertProduct>`, the argument type of `MemStorage.updateProduct`.
Every field is optional; `none` models a key that is not provided (equivalently
provided as `undefined`, which is how JSON-derived payloads always look, since
a zod-parsed body never contains a key holding `undefined`). -/
structure ProductPatch where
  name : Option String := none
  description : Option String := none
  price : Option String := none
  image : Option String := none
  rating : Option String := none
  reviewCount : Option Int := none
  badge : Option (Option String) := none
  sizes : Option (List String) := none
  featured : Option Bool := none
deriving DecidableEq, Repr

/-- `shared/schema.ts`: row type of the `users` table. -/
structure User where
  id : Nat
  username : String
  password : String
  isAdmin : Bool
deriving DecidableEq, Repr

/-- `shared/schema.ts`: `insertUserSchema` (username and password only). -/
structure InsertUser where
  username : String
  password : String
deriving DecidableEq, Repr

/-- `shared/schema.ts`: row type of the `reviews` table.  `rating` is an
integer; the only write path (`POST /api/reviews`) zod-validates it as an
integer between 1 and 5, so it is modelled as `Nat` with the range constraint
carried by `Op.valid` / explicit hypotheses.  `createdAt` is the ISO timestamp
string produced by `new Date().toISOString()`. -/
structure Review where
  id : Nat
  name : String
  rating : Nat
  comment : String
  approved : Bool
  createdAt : String
deriving DecidableEq, Repr

/-- `shared/schema.ts`: `insertReviewSchema` (no id, approved or createdAt).
`comment` is optional/nullable; `none` models an absent, `undefined` or `null`
comment (all are falsy, and `storage.ts` only reads it as `comment || ""`). -/
structure InsertReview where
  name : String
  rating : Nat
  comment : Option String
deriving DecidableEq, Repr

/-- `shared/schema.ts`: `CartItem`.  `quantity` is a JS number that the
repository leaves absent when `addToCart` creates an item from a payload with
no quantity, so it is modelled as `Option Int`; `none` stands for a
non-integer value (`undefined`, or `NaN` arising from arithmetic on
`undefined`). -/
structure CartItem where
  id : Nat
  userId : OwnerId
  productId : Int
  size : String
  quantity : Option Int
deriving DecidableEq, Repr

/-- `shared/schema.ts`: `InsertCartItem` (`userId` and `quantity` optional). -/
structure InsertCartItem where
  userId : OwnerId := OwnerId.undef
  productId : Int
  size : String
  quantity : Option Int := none
deriving DecidableEq, Repr

/-- The state of `MemStorage`: four insertion-ordered collections and the four
auto-increment counters. -/
structure MemStorage where
  users : List User
  products : List Product
  cart : List CartItem
  reviews : List Review
  currentUserId : Nat
  currentProductId : Nat
  currentCartItemId : Nat
  currentReviewId : Nat
deriving DecidableEq, Repr

/-! ## The numeric model of `(totalRating / count).toFixed(1)`

`updateProductRatings` computes `(totalRating / approvedReviews.length)
.toFixed(1)`.  The division is IEEE-754 binary64 division, which for integer
operands in the normal range returns the rational `p / q` rounded to a 53-bit
significand, round-to-nearest with ties to the even significand.  ECMA-262
`Number.prototype.toFixed(1)` then picks the integer `n` minimising
`|n / 10 - x|` over the exact binary value `x` of the double, taking the
larger `n` on a tie, and prints `n` with one fractional digit. -/

/-- Helper for `bitLen`: the first argument is fuel (structural recursion, so
that the definition reduces by plain kernel evaluation). -/
def bitLenAux : Nat → Nat → Nat
  | 0, _ => 0
  | fuel + 1, n => if n = 0 then 0 else bitLenAux fuel (n / 2) + 1

/-- Number of binary digits of `n` (`0` for `0`, else `floor (log2 n) + 1`). -/
def bitLen (n : Nat) : Nat := bitLenAux n n

/-- Round the rational `num / den` to the nearest integer, ties to even. -/
def roundDivNearestEven (num den : Nat) : Nat :=
  let q := num / den
  let r := num % den
  if den < 2 * r then q + 1
  else if 2 * r < den then q
  else q + q % 2

/-- The IEEE-754 binary64 value nearest to the rational `p / q` (for `p`, `q`
themselves exactly representable and a quotient in the normal range), returned
as a pair `(m, e)` denoting `m * 2 ^ e`.  The significand is found by scaling
`p / q` into `[2 ^ 52, 2 ^ 53)` and rounding to the nearest integer, ties to
even. -/
def fl53 (p q : Nat) : Nat × Int :=
  if p = 0 then (0, 0)
  else
    let bp : Int := (bitLen p : Int)
    let bq : Int := (bitLen q : Int)
    let t : Int := 52 - bp + bq
    let num := if 0 ≤ t then p * 2 ^ t.toNat else p
    let den := if 0 ≤ t then q else q * 2 ^ (-t).toNat
    if 2 ^ 52 ≤ num / den then (roundDivNearestEven num den, -t)
    else (roundDivNearestEven (2 * num) den, -(t + 1))

/-- ECMA-262 `toFixed(1)` applied to the nonnegative binary value `m * 2 ^ e`:
the integer `n` with `n / 10` nearest to the value, ties picking the larger
`n`; the displayed string is `n` with one decimal digit split off. -/
def toFixedTenths (m : Nat) (e : Int) : Nat :=
  if 0 ≤ e then 10 * m * 2 ^ e.toNat
  else (10 * m + 2 ^ ((-e).toNat - 1)) / 2 ^ (-e).toNat

/-- The exact value of `(p / q).toFixed(1)` in JavaScript for integer operands
(in tenths, as a natural number). -/
def jsDivTenths (p q : Nat) : Nat :=
  toFixedTenths (fl53 p q).1 (fl53 p q).2

/-- String form of a value given in tenths, one fractional digit
(`43 ↦ "4.3"`), as `toFixed(1)` prints nonnegative values below `10 ^ 21`. -/
def tenthsToString (n : Nat) : String :=
  toString (n / 10) ++ "." ++ toString (n % 10)

/-- `storage.ts`, `updateProductRatings`: the string
`(totalRating / approvedReviews.length).toFixed(1)`. -/
def averageRatingString (totalRating count : Nat) : String :=
  tenthsToString (jsDivTenths totalRating count)

/-! ## The repository operations (`server/storage.ts`, class `MemStorage`) -/

/-- JS `a || b` for an optional integer `a` with integer default `b`:
`undefined`, `NaN` and `0` are falsy. -/
def jsOrInt (a : Option Int) (b : Int) : Int :=
  match a with
  | none => b
  | some n => if n = 0 then b else n

/-- JS `+` on a possibly non-integer quantity: adding to `undefined`/`NaN`
yields `NaN` (modelled as `none`). -/
def jsAdd (a : Option Int) (b : Int) : Option Int :=
  match a with
  | none => none
  | some n => some (n + b)

/-- JS truthiness of an optional number argument (`if (userId)`). -/
def truthyNum (a : Option Int) : Bool :=
  match a with
  | none => false
  | some n => n != 0

/-- The merged product of `updateProduct`: `{ ...product, ...updateData }`
followed by the explicit `!== undefined` guards for `reviewCount`, `badge` and
`featured` (which for the `Option`-modelled patch coincide with the plain
merge). -/
def applyPatch (u : ProductPatch) (p : Product) : Product :=
  { id := p.id
    name := u.name.getD p.name
    description := u.description.getD p.description
    price := u.price.getD p.price
    image := u.image.getD p.image
    rating := u.rating.getD p.rating
    reviewCount := u.reviewCount.getD p.reviewCount
    badge := match u.badge with | none => p.badge | some b => b
    sizes := u.sizes.getD p.sizes
    featured := u.featured.getD p.featured }

namespace MemStorage

/-- `getAllProducts`. -/
def getAllProducts (s : MemStorage) : List Product :=
  s.products

/-- `getFeaturedProducts`. -/
def getFeaturedProducts (s : MemStorage) : List Product :=
  s.products.filter (fun p => p.featured)

/-- `getProduct`. -/
def getProduct (s : MemStorage) (id : Nat) : Option Product :=
  s.products.find? (fun p => p.id == id)

/-- `createProduct`: fresh id, `reviewCount || 0`, `badge || null` (an empty
string is falsy and also becomes `null`), `featured !== undefined ? featured :
true`. -/
def createProduct (s : MemStorage) (i : InsertProduct) : MemStorage × Product :=
  let id := s.currentProductId
  let product : Product :=
    { id := id
      name := i.name
      description := i.description
      price := i.price
      image := i.image
      rating := i.rating
      reviewCount := i.reviewCount.getD 0
      badge := match i.badge with
        | some (some b) => if b = "" then none else some b
        | _ => none
      sizes := i.sizes
      featured := i.featured.getD true }
  ({ s with products := s.products ++ [product], currentProductId := id + 1 }, product)

/-- `updateProduct`: look the product up by id; if absent return `undefined`
and change nothing, else store and return the merged record (`Map.set` on an
existing key keeps its insertion position). -/
def updateProduct (s : MemStorage) (id : Nat) (u : ProductPatch) :
    MemStorage × Option Product :=
  match s.products.find? (fun p => p.id == id) with
  | none => (s, none)
  | some product =>
      let updated := applyPatch u product
      ({ s with products := s.products.map (fun p => if p.id == id then updated else p) },
        some updated)

/-- `getUser`. -/
def getUser (s : MemStorage) (id : Nat) : Option User :=
  s.users.find? (fun u => u.id == id)

/-- `getUserByUsername`: linear scan, first match. -/
def getUserByUsername (s : MemStorage) (username : String) : Option User :=
  s.users.find? (fun u => u.username == username)

/-- `createUser`: fresh id, `isAdmin` always initialised to `false`. -/
def createUser (s : MemStorage) (i : InsertUser) : MemStorage × User :=
  let id := s.currentUserId
  let user : User := { id := id, username := i.username, password := i.password, isAdmin := false }
  ({ s with users := s.users ++ [user], currentUserId := id + 1 }, user)

/-- `verifyAdmin`: look up by username; require an exact plaintext password
match and the admin flag. -/
def verifyAdmin (s : MemStorage) (username password : String) : Bool :=
  match s.getUserByUsername username with
  | none => false
  | some user => user.password == password && user.isAdmin

/-- `getReview`. -/
def getReview (s : MemStorage) (id : Nat) : Option Review :=
  s.reviews.find? (fun r => r.id == id)

/-- The filter `review => review.approved` used by `updateProductRatings`. -/
def approvedList (s : MemStorage) : List Review :=
  s.reviews.filter (fun r => r.approved)

/-- The `reduce((sum, review) => sum + review.rating, 0)` of
`updateProductRatings`. -/
def reviewsTotalRating (l : List Review) : Nat :=
  l.foldl (fun sum r => sum + r.rating) 0

/-- `updateProductRatings`: take the first product in insertion order; gather
the approved reviews; if there are none, return unchanged; otherwise write the
rounded mean and the approved count onto that product via `updateProduct`. -/
def updateProductRatings (s : MemStorage) : MemStorage :=
  match s.products.head? with
  | none => s
  | some product =>
      let approvedReviews := s.approvedList
      if approvedReviews.length = 0 then s
      else
        let totalRating := reviewsTotalRating approvedReviews
        let averageRating := averageRatingString totalRating approvedReviews.length
        (s.updateProduct product.id
          { rating := some averageRating, reviewCount := some (approvedReviews.length : Int) }).1

/-- `createReview`: fresh id, `comment || ""`, `approved` forced to `true`,
timestamp `now` (the value of `new Date().toISOString()`, passed explicitly),
then recompute the product rating. -/
def createReview (s : MemStorage) (i : InsertReview) (now : String) :
    MemStorage × Review :=
  let id := s.currentReviewId
  let review : Review :=
    { id := id, name := i.name, rating := i.rating, comment := i.comment.getD "",
      approved := true, createdAt := now }
  let s1 := { s with reviews := s.reviews ++ [review], currentReviewId := id + 1 }
  (s1.updateProductRatings, review)

/-- `updateReview`: set the approval flag if the review exists, then recompute
the product rating. -/
def updateReview (s : MemStorage) (id : Nat) (approved : Bool) :
    MemStorage × Option Review :=
  match s.reviews.find? (fun r => r.id == id) with
  | none => (s, none)
  | some review =>
      let updated : Review := { review with approved := approved }
      let s1 := { s with reviews := s.reviews.map (fun (r : Review) => if r.id == id then updated else r) }
      (s1.updateProductRatings, some updated)

/-- `deleteReview`: `Map.delete` (report whether the id was present), and
recompute the product rating only if a deletion occurred. -/
def deleteReview (s : MemStorage) (id : Nat) : MemStorage × Bool :=
  let deleted := s.reviews.any (fun r => r.id == id)
  let s1 := { s with reviews := s.reviews.filter (fun r => r.id != id) }
  (if deleted then s1.updateProductRatings else s1, deleted)

/-- `getCartItems`: with a truthy `userId`, the items with exactly that owner;
otherwise the items whose owner is strictly `undefined`. -/
def getCartItems (s : MemStorage) (userId : Option Int) : List CartItem :=
  if truthyNum userId then
    s.cart.filter (fun item => item.userId == OwnerId.user (userId.getD 0))
  else
    s.cart.filter (fun item => item.userId == OwnerId.undef)

/-- `updateCartItemQuantity`: replace the quantity if the item exists.  The
quantity parameter is a JS number which may be `NaN` (see `addToCart`), hence
`Option Int`. -/
def updateCartItemQuantity (s : MemStorage) (id : Nat) (quantity : Option Int) :
    MemStorage × Option CartItem :=
  match s.cart.find? (fun c => c.id == id) with
  | none => (s, none)
  | some cartItem =>
      let updated := { cartItem with quantity := quantity }
      ({ s with cart := s.cart.map (fun c => if c.id == id then updated else c) },
        some updated)

/-- `addToCart`: if an item with the same product, size and owner exists
(first match in insertion order), bump its quantity by
`insertCartItem.quantity || 1` through `updateCartItemQuantity`; otherwise
create a fresh item by spreading the payload.  The `as Promise<CartItem>` cast
of the source is modelled by an unreachable fallback branch (the found item's
id is present, so the update always succeeds). -/
def addToCart (s : MemStorage) (i : InsertCartItem) : MemStorage × CartItem :=
  match s.cart.find? (fun item =>
      item.productId == i.productId && item.size == i.size && item.userId == i.userId) with
  | some existingItem =>
      let r : MemStorage × Option CartItem := s.updateCartItemQuantity existingItem.id
        (jsAdd existingItem.quantity (jsOrInt i.quantity 1))
      match r.2 with
      | some c => (r.1, c)
      | none => (r.1, { existingItem with
          quantity := jsAdd existingItem.quantity (jsOrInt i.quantity 1) })
  | none =>
      let id := s.currentCartItemId
      let cartItem : CartItem :=
        { id := id, userId := i.userId, productId := i.productId, size := i.size,
          quantity := i.quantity }
      ({ s with cart := s.cart ++ [cartItem], currentCartItemId := id + 1 }, cartItem)

/-- `removeFromCart`: `Map.delete`, reporting whether the id was present. -/
def removeFromCart (s : MemStorage) (id : Nat) : MemStorage × Bool :=
  let existed := s.cart.any (fun c => c.id == id)
  ({ s with cart := s.cart.filter (fun c => c.id != id) }, existed)

/-- `clearCart`: bulk-delete by the same ownership scope as `getCartItems`
(truthy `userId`: that owner; otherwise strictly `undefined` owners), always
returning `true`. -/
def clearCart (s : MemStorage) (userId : Option Int) : MemStorage × Bool :=
  if truthyNum userId then
    ({ s with cart := s.cart.filter (fun item => item.userId != OwnerId.user (userId.getD 0)) },
      true)
  else
    ({ s with cart := s.cart.filter (fun item => item.userId != OwnerId.undef) }, true)

end MemStorage

/-- The empty store with all counters at 1, as at the top of the
constructor. -/
def emptyStorage : MemStorage :=
  { users := [], products := [], cart := [], reviews := [],
    currentUserId := 1, currentProductId := 1, currentCartItemId := 1, currentReviewId := 1 }

/-- The seed product literal of `seedProducts`. -/
def seedInsertProduct : InsertProduct :=
  { name := "Flaze Heated Lunch Box"
    description := "Premium heated lunch box with temperature control. Keep your meals warm anywhere you go."
    price := "59.99"
    image := ""
    rating := "5.0"
    reviewCount := some 0
    badge := some (some "New")
    sizes := ["S", "M", "L"]
    featured := some true }

/-- The state produced by the `MemStorage` constructor: the admin user is
created, its record is replaced by one with `isAdmin := true` (the `.then`
callback of `createUser`; it runs as a microtask after the constructor body,
but commutes with `seedProducts`, which touches only products), and the single
seed product is created. -/
def seededStorage : MemStorage :=
  let r1 := emptyStorage.createUser { username := "admin", password := "admin123" }
  let s1 := r1.1
  let s2 := { s1 with
    users := s1.users.map (fun (u : User) =>
      if u.id == r1.2.id then { u with isAdmin := true } else u) }
  (s2.createProduct seedInsertProduct).1

/-! ## Route-level operation traces (`server/routes.ts`)

The repository is driven exclusively through the HTTP routes.  The routes
expose cart operations, review operations and one admin product update; no
route creates products or users, so every reachable state keeps the seeded
product as the unique (hence first) product.  `Op` carries the payload as it
leaves zod validation, and `Op.valid` records the zod constraints that are not
already captured by the payload types. -/

/-- The body schema of `PATCH /api/admin/products/:id`: only `name`,
`description`, `price`, `image`, `sizes` and a nullable `badge` are accepted
(neither `rating` nor `reviewCount` nor `featured` can be set this way). -/
structure AdminProductPatch where
  name : Option String := none
  description : Option String := none
  price : Option String := none
  image : Option String := none
  sizes : Option (List String) := none
  badge : Option (Option String) := none
deriving DecidableEq, Repr

/-- Widen an admin patch to the full `Partial<InsertProduct>` (the omitted
fields are simply not present in the parsed body). -/
def AdminProductPatch.toPatch (a : AdminProductPatch) : ProductPatch :=
  { name := a.name, description := a.description, price := a.price,
    image := a.image, sizes := a.sizes, badge := a.badge }

/-- One repository call as performed by a route handler. -/
inductive Op where
  | addToCart (i : InsertCartItem) : Op
  | updateCartItemQuantity (id : Nat) (quantity : Option Int) : Op
  | removeFromCart (id : Nat) : Op
  | clearCart (userId : Option Int) : Op
  | createReview (i : InsertReview) (now : String) : Op
  | updateReview (id : Nat) (approved : Bool) : Op
  | deleteReview (id : Nat) : Op
  | adminUpdateProduct (id : Nat) (u : AdminProductPatch) : Op
deriving DecidableEq, Repr

/-- The zod constraints of the corresponding route bodies: a review rating is
an integer in `[1, 5]`, a cart-quantity patch is a positive integer, and
`POST /api/cart` always carries a quantity (zod fills in the default `1`). -/
def Op.valid : Op → Bool
  | .createReview i _ => 1 ≤ i.rating && i.rating ≤ 5
  | .updateCartItemQuantity _ q => match q with | some n => 1 ≤ n | none => false
  | .addToCart i => i.quantity.isSome
  | _ => true

/-- Whether the operation is a review create/update/delete. -/
def Op.isReviewMutation : Op → Bool
  | .createReview _ _ => true
  | .updateReview _ _ => true
  | .deleteReview _ => true
  | _ => false

/-- Apply one operation to the store (dropping the returned value). -/
def stepOp (s : MemStorage) : Op → MemStorage
  | .addToCart i => (s.addToCart i).1
  | .updateCartItemQuantity id q => (s.updateCartItemQuantity id q).1
  | .removeFromCart id => (s.removeFromCart id).1
  | .clearCart u => (s.clearCart u).1
  | .createReview i now => (s.createReview i now).1
  | .updateReview id b => (s.updateReview id b).1
  | .deleteReview id => (s.deleteReview id).1
  | .adminUpdateProduct id u => (s.updateProduct id u.toPatch).1

/-- The state after a sequence of route-level operations, starting from the
constructor-seeded store. -/
def runOps (ops : List Op) : MemStorage :=
  ops.foldl stepOp seededStorage

/-- Modelled from the spec: the words "the arithmetic mean of r1..rN rounded
to one decimal place" read as exact rational arithmetic, rounding half-up at
the tenths (the convention under which 4.35 rounds to 4.4; round-half-even
agrees on every tie with an odd tenths digit, in particular on 4.35).  Used
only to compare the specified rounding with the implemented one. -/
def specMeanRoundedTenths (total count : Nat) : Nat :=
  (20 * total + count) / (2 * count)

/-- The spec-words mean of `specMeanRoundedTenths`, as a one-decimal string. -/
def specMeanRounded (total count : Nat) : String :=
  tenthsToString (specMeanRoundedTenths total count)

/-! ## Basic lemmas about the operations -/

/-- `updateProduct` touches only the product collection. -/
theorem updateProduct_reviews (s : MemStorage) (id : Nat) (u : ProductPatch) :
    (s.updateProduct id u).1.reviews = s.reviews := by
  unfold MemStorage.updateProduct
  split <;> rfl

theorem updateProduct_cart (s : MemStorage) (id : Nat) (u : ProductPatch) :
    (s.updateProduct id u).1.cart = s.cart := by
  unfold MemStorage.updateProduct
  split <;> rfl

theorem updateProduct_users (s : MemStorage) (id : Nat) (u : ProductPatch) :
    (s.updateProduct id u).1.users = s.users := by
  unfold MemStorage.updateProduct
  split <;> rfl

/-- `updateProductRatings` never changes the reviews. -/
theorem updateProductRatings_reviews (s : MemStorage) :
    s.updateProductRatings.reviews = s.reviews := by
  unfold MemStorage.updateProductRatings
  split
  · rfl
  · by_cases h : s.approvedList.length = 0
    · simp [h]
    · simp [h, updateProduct_reviews]

/-- `updateProductRatings` never changes the cart. -/
theorem updateProductRatings_cart (s : MemStorage) :
    s.updateProductRatings.cart = s.cart := by
  unfold MemStorage.updateProductRatings
  split
  · rfl
  · by_cases h : s.approvedList.length = 0
    · simp [h]
    · simp [h, updateProduct_cart]

/-- `updateProductRatings` never changes the users. -/
theorem updateProductRatings_users (s : MemStorage) :
    s.updateProductRatings.users = s.users := by
  unfold MemStorage.updateProductRatings
  split
  · rfl
  · by_cases h : s.approvedList.length = 0
    · simp [h]
    · simp [h, updateProduct_users]

/-- With no approved review, `updateProductRatings` is the identity. -/
theorem updateProductRatings_of_no_approved (s : MemStorage)
    (h : s.approvedList.length = 0) : s.updateProductRatings = s := by
  unfold MemStorage.updateProductRatings
  split
  · rfl
  · simp [h]

/-- With at least one approved review and at least one product,
`updateProductRatings` replaces the first product by its patched version
carrying the rounded mean and the approved count. -/
theorem updateProductRatings_head (s : MemStorage) (p : Product)
    (hp : s.products.head? = some p) (hap : s.approvedList.length ≠ 0) :
    s.updateProductRatings.products.head? =
      some (applyPatch
        { rating := some (averageRatingString (MemStorage.reviewsTotalRating s.approvedList)
            s.approvedList.length),
          reviewCount := some (s.approvedList.length : Int) } p) := by
  rcases hl : s.products with _ | ⟨p0, tl⟩
  · rw [hl] at hp; simp at hp
  · rw [hl] at hp
    simp only [List.head?_cons, Option.some.injEq] at hp
    subst hp
    unfold MemStorage.updateProductRatings
    rw [hl]
    simp only [List.head?_cons, if_neg hap]
    unfold MemStorage.updateProduct
    rw [hl]
    simp [List.find?_cons]

/-- The rating-consistency statement for the first product: it exists, and
whenever at least one approved review is present, its stored rating string and
review count are the recomputed ones. -/
def ConsistentHead (s : MemStorage) : Prop :=
  ∃ p, s.products.head? = some p ∧
    (0 < s.approvedList.length →
      p.rating = averageRatingString (MemStorage.reviewsTotalRating s.approvedList)
          s.approvedList.length ∧
      p.reviewCount = (s.approvedList.length : Int))

/-- Consistency transports along equality of the product and review
collections. -/
theorem consistentHead_congr {s t : MemStorage} (hp : t.products = s.products)
    (hr : t.reviews = s.reviews) (h : ConsistentHead s) : ConsistentHead t := by
  obtain ⟨p, h1, h2⟩ := h
  have hap : t.approvedList = s.approvedList := by
    unfold MemStorage.approvedList
    rw [hr]
  exact ⟨p, by rw [hp]; exact h1, by rw [hap]; exact h2⟩

/-- After `updateProductRatings`, the first product is consistent (provided one
exists). -/
theorem updateProductRatings_consistent (s : MemStorage) (p : Product)
    (hp : s.products.head? = some p) : ConsistentHead s.updateProductRatings := by
  by_cases hap : s.approvedList.length = 0
  · rw [updateProductRatings_of_no_approved s hap]
    exact ⟨p, hp, fun hl => by rw [hap] at hl; exact absurd hl (by simp)⟩
  · refine ⟨_, updateProductRatings_head s p hp hap, fun _ => ?_⟩
    have hr : s.updateProductRatings.approvedList = s.approvedList := by
      unfold MemStorage.approvedList
      rw [updateProductRatings_reviews]
    rw [hr]
    exact ⟨rfl, rfl⟩

/-- `updateCartItemQuantity` touches only the cart. -/
theorem updateCartItemQuantity_products (s : MemStorage) (id : Nat) (q : Option Int) :
    (s.updateCartItemQuantity id q).1.products = s.products := by
  unfold MemStorage.updateCartItemQuantity
  split <;> rfl

theorem updateCartItemQuantity_reviews (s : MemStorage) (id : Nat) (q : Option Int) :
    (s.updateCartItemQuantity id q).1.reviews = s.reviews := by
  unfold MemStorage.updateCartItemQuantity
  split <;> rfl

/-- `addToCart` touches only the cart (and its counter). -/
theorem addToCart_products (s : MemStorage) (i : InsertCartItem) :
    (s.addToCart i).1.products = s.products := by
  unfold MemStorage.addToCart
  rcases hf : s.cart.find? (fun item =>
      item.productId == i.productId && item.size == i.size && item.userId == i.userId)
    with _ | ex
  · simp [hf]
  · simp only [hf]
    rcases hg : (s.updateCartItemQuantity ex.id (jsAdd ex.quantity (jsOrInt i.quantity 1))).2
      with _ | c
    · simp [hg, updateCartItemQuantity_products]
    · simp [hg, updateCartItemQuantity_products]

theorem addToCart_reviews (s : MemStorage) (i : InsertCartItem) :
    (s.addToCart i).1.reviews = s.reviews := by
  unfold MemStorage.addToCart
  rcases hf : s.cart.find? (fun item =>
      item.productId == i.productId && item.size == i.size && item.userId == i.userId)
    with _ | ex
  · simp [hf]
  · simp only [hf]
    rcases hg : (s.updateCartItemQuantity ex.id (jsAdd ex.quantity (jsOrInt i.quantity 1))).2
      with _ | c
    · simp [hg, updateCartItemQuantity_reviews]
    · simp [hg, updateCartItemQuantity_reviews]

/-- When the patch carries neither a rating nor a review count (as every admin
product patch does), `updateProduct` leaves the first product's rating and
review count intact. -/
theorem updateProduct_head_no_rating (s : MemStorage) (id : Nat) (u : ProductPatch)
    (hur : u.rating = none) (huc : u.reviewCount = none) (p : Product)
    (hp : s.products.head? = some p) :
    ∃ q, (s.updateProduct id u).1.products.head? = some q ∧
      q.rating = p.rating ∧ q.reviewCount = p.reviewCount := by
  rcases hl : s.products with _ | ⟨p0, tl⟩
  · rw [hl] at hp; simp at hp
  · rw [hl] at hp
    simp only [List.head?_cons, Option.some.injEq] at hp
    subst hp
    unfold MemStorage.updateProduct
    rcases hf : List.find? (fun q => q.id == id) s.products with _ | w
    · simp only [hf]
      exact ⟨p0, by rw [hl]; rfl, rfl, rfl⟩
    · simp only [hf]
      rw [hl]
      simp only [List.map_cons, List.head?_cons]
      by_cases hid : (p0.id == id) = true
      · have hfp : List.find? (fun q => q.id == id) (p0 :: tl) = some p0 :=
          List.find?_cons_of_pos tl hid
        rw [hl, hfp] at hf
        injection hf with hw
        subst hw
        refine ⟨applyPatch u p0, by rw [if_pos hid], ?_, ?_⟩
        · simp [applyPatch, hur]
        · simp [applyPatch, huc]
      · exact ⟨p0, by rw [if_neg hid], rfl, rfl⟩

/-- Every route-level operation preserves first-product consistency. -/
theorem stepOp_consistent (s : MemStorage) (op : Op) (h : ConsistentHead s) :
    ConsistentHead (stepOp s op) := by
  obtain ⟨p, hp, hcons⟩ := h
  cases op with
  | addToCart i =>
      exact consistentHead_congr (addToCart_products s i) (addToCart_reviews s i) ⟨p, hp, hcons⟩
  | updateCartItemQuantity id q =>
      exact consistentHead_congr (updateCartItemQuantity_products s id q)
        (updateCartItemQuantity_reviews s id q) ⟨p, hp, hcons⟩
  | removeFromCart id =>
      exact consistentHead_congr rfl rfl ⟨p, hp, hcons⟩
  | clearCart u =>
      refine consistentHead_congr ?_ ?_ ⟨p, hp, hcons⟩ <;>
        · simp only [stepOp, MemStorage.clearCart]
          split <;> rfl
  | createReview i now =>
      simp only [stepOp, MemStorage.createReview]
      exact updateProductRatings_consistent _ p hp
  | updateReview id b =>
      simp only [stepOp, MemStorage.updateReview]
      split
      · exact ⟨p, hp, hcons⟩
      · exact updateProductRatings_consistent _ p hp
  | deleteReview id =>
      simp only [stepOp, MemStorage.deleteReview]
      cases hd : s.reviews.any (fun r => r.id == id) with
      | true => exact updateProductRatings_consistent _ p hp
      | false =>
          have hr : s.reviews.filter (fun r => r.id != id) = s.reviews := by
            refine List.filter_eq_self.mpr ?_
            intro r hrmem
            have h2 := List.any_eq_false.mp hd r hrmem
            simpa using h2
          show ConsistentHead
            ({ s with reviews := s.reviews.filter (fun r => r.id != id) } : MemStorage)
          exact consistentHead_congr
            (show ({ s with reviews := s.reviews.filter (fun r => r.id != id) } :
              MemStorage).products = s.products from rfl)
            hr ⟨p, hp, hcons⟩
  | adminUpdateProduct id u =>
      obtain ⟨q, hq, hqr, hqc⟩ :=
        updateProduct_head_no_rating s id u.toPatch rfl rfl p hp
      refine ⟨q, hq, fun hl => ?_⟩
      have hap : (s.updateProduct id u.toPatch).1.approvedList = s.approvedList := by
        unfold MemStorage.approvedList
        rw [updateProduct_reviews]
      rw [show stepOp s (Op.adminUpdateProduct id u) = (s.updateProduct id u.toPatch).1 from rfl,
        hap] at hl ⊢
      rw [hqr, hqc]
      exact hcons hl

/-- Consistency is preserved along any operation sequence. -/
theorem foldl_consistent (ops : List Op) :
    ∀ s : MemStorage, ConsistentHead s → ConsistentHead (ops.foldl stepOp s) := by
  induction ops with
  | nil => exact fun s h => h
  | cons op ops ih => exact fun s h => ih _ (stepOp_consistent s op h)

/-- The seeded store is consistent (no reviews yet, first product present). -/
theorem seeded_consistent : ConsistentHead seededStorage :=
  ⟨_, rfl, fun hl => absurd hl (by decide)⟩

/-- Every reachable state is consistent. -/
theorem runOps_consistent (ops : List Op) : ConsistentHead (runOps ops) :=
  foldl_consistent ops seededStorage seeded_consistent

/-- Appending one operation to a trace steps the resulting state once. -/
theorem runOps_append (ops : List Op) (op : Op) :
    runOps (ops ++ [op]) = stepOp (runOps ops) op := by
  simp [runOps, List.foldl_append]

/-- `updateProductRatings` does not change which reviews are approved. -/
theorem updateProductRatings_approvedList (s : MemStorage) :
    s.updateProductRatings.approvedList = s.approvedList := by
  unfold MemStorage.approvedList
  rw [updateProductRatings_reviews]

/-- The approved list after `createReview` is the previous approved list with
the new (always-approved) review appended. -/
theorem createReview_approvedList (s : MemStorage) (i : InsertReview) (now : String) :
    (s.createReview i now).1.approvedList =
      s.approvedList ++ [(s.createReview i now).2] := by
  simp only [MemStorage.createReview]
  rw [updateProductRatings_approvedList]
  unfold MemStorage.approvedList
  simp [List.filter_append]

/-- If an update leaves no approved review, the product collection is
untouched (the recomputation returns early). -/
theorem updateReview_products_of_no_approved (s : MemStorage) (id : Nat) (b : Bool)
    (hz : (s.updateReview id b).1.approvedList.length = 0) :
    (s.updateReview id b).1.products = s.products := by
  simp only [MemStorage.updateReview] at hz ⊢
  rcases hf : s.reviews.find? (fun r => r.id == id) with _ | rev
  · simp [hf]
  · simp only [hf] at hz ⊢
    rw [updateProductRatings_approvedList] at hz
    rw [updateProductRatings_of_no_approved _ hz]

/-- If a deletion leaves no approved review, the product collection is
untouched. -/
theorem deleteReview_products_of_no_approved (s : MemStorage) (id : Nat)
    (hz : (s.deleteReview id).1.approvedList.length = 0) :
    (s.deleteReview id).1.products = s.products := by
  cases hd : s.reviews.any (fun r => r.id == id) with
  | false =>
      have he1 : (s.deleteReview id).1 =
          { s with reviews := s.reviews.filter (fun r => r.id != id) } := by
        simp [MemStorage.deleteReview, hd]
      rw [he1]
  | true =>
      have he1 : (s.deleteReview id).1 =
          ({ s with reviews := s.reviews.filter (fun r => r.id != id) } :
            MemStorage).updateProductRatings := by
        simp [MemStorage.deleteReview, hd]
      rw [he1] at hz ⊢
      rw [updateProductRatings_approvedList] at hz
      rw [updateProductRatings_of_no_approved _ hz]

/-! ## The claims -/

/-- The trace refuting claim C2 as stated: create one approved review, then
un-approve it through the admin endpoint. -/
def c2Trace : List Op :=
  [Op.createReview { name := "a", rating := 3, comment := none } "t0",
   Op.updateReview 1 false]

/-- Claim C2, counterexample.  As stated, the claim requires `reviewCount` to
equal the number of approved reviews in every reachable state.  After the
valid route-level trace `c2Trace` (create one review, then set its approval to
false) there are 0 approved reviews, but the recomputation returns early on an
empty approved list, so the first product still records `reviewCount = 1`. -/
theorem c2_counterexample :
    (∀ op ∈ c2Trace, op.valid = true) ∧
    (runOps c2Trace).approvedList.length = 0 ∧
    ((runOps c2Trace).products.head?.map (fun p => p.reviewCount)) = some 1 ∧
    (1 : Int) ≠ 0 := by
  refine ⟨by decide, by decide, by decide, by decide⟩

/-- Claim C2 (amended): in every state reachable by route-level operations
from the seeded store, the first product exists, and whenever the number of
currently-approved reviews is positive, its `reviewCount` equals that number
and its `rating` equals the mean of the approved ratings as computed by the
implementation (IEEE-754 double division followed by `toFixed(1)`).  When the
approved count is zero, rating and count keep their previous values (the
recomputation returns early), so no equality is claimed. -/
theorem c2_invariant_amended (ops : List Op) :
    ∃ p, (runOps ops).products.head? = some p ∧
      (0 < (runOps ops).approvedList.length →
        p.rating = averageRatingString
            (MemStorage.reviewsTotalRating (runOps ops).approvedList)
            (runOps ops).approvedList.length ∧
        p.reviewCount = ((runOps ops).approvedList.length : Int)) :=
  runOps_consistent ops

/-- The concrete trace instantiating the amended claim C2's witness. -/
def c2WitnessTrace : List Op :=
  [Op.createReview { name := "w", rating := 4, comment := none } "t0",
   Op.createReview { name := "x", rating := 5, comment := some "ok" } "t1"]

/-- Witness for the amended claim C2 at a concrete two-review trace, with the
positivity hypothesis discharged by computation. -/
theorem c2_witness :
    0 < (runOps c2WitnessTrace).approvedList.length ∧
    ∃ p, (runOps c2WitnessTrace).products.head? = some p ∧
      p.rating = averageRatingString
          (MemStorage.reviewsTotalRating (runOps c2WitnessTrace).approvedList)
          (runOps c2WitnessTrace).approvedList.length ∧
      p.reviewCount = ((runOps c2WitnessTrace).approvedList.length : Int) := by
  refine ⟨by decide, ?_⟩
  obtain ⟨p, h1, h2⟩ := c2_invariant_amended c2WitnessTrace
  exact ⟨p, h1, h2 (by decide)⟩

/-- The trace refuting claim C1 as stated: twenty approved reviews whose
ratings sum to 87, so the exact mean is 4.35. -/
def c1Trace : List Op :=
  List.replicate 16 (Op.createReview { name := "r", rating := 5, comment := none } "t") ++
  [Op.createReview { name := "r", rating := 1, comment := none } "t",
   Op.createReview { name := "r", rating := 2, comment := none } "t",
   Op.createReview { name := "r", rating := 2, comment := none } "t",
   Op.createReview { name := "r", rating := 2, comment := none } "t"]

/-- Claim C1, counterexample.  As stated, the claim requires the stored rating
to be the arithmetic mean rounded to one decimal place.  After `c1Trace`
(twenty approved reviews, total 87, mean exactly 4.35) the code stores "4.3",
because the IEEE-754 double nearest to 87/20 is slightly below 4.35 and
`toFixed(1)` rounds it down; the mean rounded to one decimal place is "4.4"
(under round-half-up, and round-half-even agrees on this tie). -/
theorem c1_counterexample :
    (∀ op ∈ c1Trace, op.valid = true) ∧
    (runOps c1Trace).approvedList.length = 20 ∧
    MemStorage.reviewsTotalRating (runOps c1Trace).approvedList = 87 ∧
    ((runOps c1Trace).products.head?.map (fun p => p.rating)) = some "4.3" ∧
    specMeanRounded 87 20 = "4.4" ∧
    ("4.3" : String) ≠ "4.4" := by
  refine ⟨by decide, by decide, by decide, by decide, by decide, by decide⟩

/-- Claim C1 (amended): after any review create/update/delete performed on a
reachable state, if the mutation leaves N ≥ 1 approved reviews then the first
product's rating is the mean of their ratings as the implementation computes
it (IEEE-754 double division then `toFixed(1)`) and its reviewCount is N; if
the mutation leaves zero approved reviews, the product collection — hence the
first product's rating and reviewCount — is left unchanged. -/
theorem c1_recompute_amended (ops : List Op) (op : Op)
    (hm : op.isReviewMutation = true) :
    (0 < (stepOp (runOps ops) op).approvedList.length →
      ∃ p, (stepOp (runOps ops) op).products.head? = some p ∧
        p.rating = averageRatingString
            (MemStorage.reviewsTotalRating (stepOp (runOps ops) op).approvedList)
            (stepOp (runOps ops) op).approvedList.length ∧
        p.reviewCount = ((stepOp (runOps ops) op).approvedList.length : Int)) ∧
    ((stepOp (runOps ops) op).approvedList.length = 0 →
      (stepOp (runOps ops) op).products = (runOps ops).products) := by
  constructor
  · intro hl
    obtain ⟨p, h1, h2⟩ := stepOp_consistent (runOps ops) op (runOps_consistent ops)
    exact ⟨p, h1, h2 hl⟩
  · intro hz
    cases op with
    | createReview i now =>
        rw [show stepOp (runOps ops) (Op.createReview i now) =
            ((runOps ops).createReview i now).1 from rfl,
          createReview_approvedList] at hz
        simp at hz
    | updateReview id b =>
        exact updateReview_products_of_no_approved (runOps ops) id b hz
    | deleteReview id =>
        exact deleteReview_products_of_no_approved (runOps ops) id hz
    | addToCart i => simp [Op.isReviewMutation] at hm
    | updateCartItemQuantity id q => simp [Op.isReviewMutation] at hm
    | removeFromCart id => simp [Op.isReviewMutation] at hm
    | clearCart u => simp [Op.isReviewMutation] at hm
    | adminUpdateProduct id u => simp [Op.isReviewMutation] at hm

/-- The single operation for the amended claim C1's witness. -/
def c1WitnessOp : Op :=
  Op.createReview { name := "n", rating := 5, comment := none } "t"

/-- Witness for the amended claim C1: one concrete review creation on the
seeded store, with the mutation-kind hypothesis discharged by computation. -/
theorem c1_witness :
    c1WitnessOp.isReviewMutation = true ∧
    ((0 < (stepOp (runOps []) c1WitnessOp).approvedList.length →
      ∃ p, (stepOp (runOps []) c1WitnessOp).products.head? = some p ∧
        p.rating = averageRatingString
            (MemStorage.reviewsTotalRating (stepOp (runOps []) c1WitnessOp).approvedList)
            (stepOp (runOps []) c1WitnessOp).approvedList.length ∧
        p.reviewCount = ((stepOp (runOps []) c1WitnessOp).approvedList.length : Int)) ∧
    ((stepOp (runOps []) c1WitnessOp).approvedList.length = 0 →
      (stepOp (runOps []) c1WitnessOp).products = (runOps []).products)) :=
  ⟨by decide, c1_recompute_amended [] c1WitnessOp (by decide)⟩

/-- Claim C3: for an existing product id, `updateProduct` returns the merged
record: every field not provided in the partial update (modelled as `none`,
i.e. an absent or `undefined` key) keeps the prior value, a `badge` provided
explicitly as `null` (`some none`) is cleared to `null`, and a provided value
overrides; for a non-existent id it returns absent and changes nothing. -/
theorem c3_updateProduct (s : MemStorage) (id : Nat) (u : ProductPatch) :
    (∀ p, s.products.find? (fun q => q.id == id) = some p →
      ∃ r, (s.updateProduct id u).2 = some r ∧
        r.id = p.id ∧
        r.name = u.name.getD p.name ∧
        r.description = u.description.getD p.description ∧
        r.price = u.price.getD p.price ∧
        r.image = u.image.getD p.image ∧
        r.rating = u.rating.getD p.rating ∧
        r.reviewCount = u.reviewCount.getD p.reviewCount ∧
        r.sizes = u.sizes.getD p.sizes ∧
        r.featured = u.featured.getD p.featured ∧
        r.badge = (match u.badge with | none => p.badge | some b => b) ∧
        (u.badge = some none → r.badge = none)) ∧
    (s.products.find? (fun q => q.id == id) = none →
      s.updateProduct id u = (s, none)) := by
  constructor
  · intro p hf
    refine ⟨applyPatch u p, ?_, rfl, rfl, rfl, rfl, rfl, rfl, rfl, rfl, rfl, rfl, ?_⟩
    · unfold MemStorage.updateProduct
      simp [hf]
    · intro hb
      simp [applyPatch, hb]
  · intro hf
    unfold MemStorage.updateProduct
    simp [hf]

/-- The clearing patch used in claim C3's witness. -/
def c3Patch : ProductPatch := { badge := some none }

/-- The seed product record, as it sits in the seeded store. -/
def seedProductValue : Product :=
  { id := 1
    name := "Flaze Heated Lunch Box"
    description := "Premium heated lunch box with temperature control. Keep your meals warm anywhere you go."
    price := "59.99"
    image := ""
    rating := "5.0"
    reviewCount := 0
    badge := some "New"
    sizes := ["S", "M", "L"]
    featured := true }

/-- Witness for claim C3: clearing the badge of the seeded product through an
explicit null, with the lookup hypothesis discharged by computation. -/
theorem c3_witness :
    ∃ r, (seededStorage.updateProduct 1 c3Patch).2 = some r ∧
      r.id = seedProductValue.id ∧
      r.name = c3Patch.name.getD seedProductValue.name ∧
      r.description = c3Patch.description.getD seedProductValue.description ∧
      r.price = c3Patch.price.getD seedProductValue.price ∧
      r.image = c3Patch.image.getD seedProductValue.image ∧
      r.rating = c3Patch.rating.getD seedProductValue.rating ∧
      r.reviewCount = c3Patch.reviewCount.getD seedProductValue.reviewCount ∧
      r.sizes = c3Patch.sizes.getD seedProductValue.sizes ∧
      r.featured = c3Patch.featured.getD seedProductValue.featured ∧
      r.badge = (match c3Patch.badge with | none => seedProductValue.badge | some b => b) ∧
      (c3Patch.badge = some none → r.badge = none) :=
  (c3_updateProduct seededStorage 1 c3Patch).1 seedProductValue (by decide)

/-- `updateCartItemQuantity` on a present id stores and returns the item with
the replaced quantity (at its original position). -/
theorem updateCartItemQuantity_spec (s : MemStorage) (id : Nat) (q : Option Int)
    (w : CartItem) (hw : s.cart.find? (fun c => c.id == id) = some w) :
    (s.updateCartItemQuantity id q).2 = some { w with quantity := q } ∧
    (s.updateCartItemQuantity id q).1.cart =
      s.cart.map (fun c => if c.id == id then { w with quantity := q } else c) := by
  unfold MemStorage.updateCartItemQuantity
  simp [hw]

/-- `updateCartItemQuantity` leaves the cart id counter alone. -/
theorem updateCartItemQuantity_counter (s : MemStorage) (id : Nat) (q : Option Int) :
    (s.updateCartItemQuantity id q).1.currentCartItemId = s.currentCartItemId := by
  unfold MemStorage.updateCartItemQuantity
  split <;> rfl

/-- A member's id can always be looked up (as the first item carrying it). -/
theorem find?_by_id_of_mem {l : List CartItem} {ex : CartItem} (h : ex ∈ l) :
    ∃ w, l.find? (fun c => c.id == ex.id) = some w ∧ w.id = ex.id := by
  have hs : (l.find? (fun c => c.id == ex.id)).isSome := by
    rw [List.find?_isSome]
    exact ⟨ex, h, by simp⟩
  rcases hw : l.find? (fun c => c.id == ex.id) with _ | w
  · rw [hw] at hs; simp at hs
  · refine ⟨w, hw, ?_⟩
    have := List.find?_some hw
    simpa using this

/-- Claim C4 (amended): `addToCart` merges when an item with identical
product, size and owner exists (first such item in insertion order): that
item's quantity is bumped by the requested quantity — where an absent or zero
quantity counts as 1, the JS `quantity || 1` — and no new record is created;
otherwise a new record with the fresh identifier is appended and the counter
advances.  In particular two calls with the same owner/product/size and
explicit positive quantities leave one record carrying the sum. -/
theorem c4_addToCart_amended (s : MemStorage) (i : InsertCartItem) :
    (∀ ex, s.cart.find? (fun item =>
        item.productId == i.productId && item.size == i.size &&
          item.userId == i.userId) = some ex →
      (s.addToCart i).2.id = ex.id ∧
      (s.addToCart i).2.quantity = jsAdd ex.quantity (jsOrInt i.quantity 1) ∧
      (s.addToCart i).1.cart.length = s.cart.length ∧
      (s.addToCart i).1.currentCartItemId = s.currentCartItemId ∧
      (∀ c ∈ s.cart, c.id ≠ ex.id → c ∈ (s.addToCart i).1.cart)) ∧
    (s.cart.find? (fun item =>
        item.productId == i.productId && item.size == i.size &&
          item.userId == i.userId) = none →
      (s.addToCart i).2 = { id := s.currentCartItemId, userId := i.userId,
                            productId := i.productId, size := i.size,
                            quantity := i.quantity } ∧
      (s.addToCart i).1.cart = s.cart ++ [(s.addToCart i).2] ∧
      (s.addToCart i).1.currentCartItemId = s.currentCartItemId + 1) := by
  constructor
  · intro ex hf
    have hmem := List.mem_of_find?_eq_some hf
    obtain ⟨w, hw, hwid⟩ := find?_by_id_of_mem hmem
    obtain ⟨h2, h1⟩ := updateCartItemQuantity_spec s ex.id
      (jsAdd ex.quantity (jsOrInt i.quantity 1)) w hw
    have hred : s.addToCart i =
        ((s.updateCartItemQuantity ex.id (jsAdd ex.quantity (jsOrInt i.quantity 1))).1,
          { w with quantity := jsAdd ex.quantity (jsOrInt i.quantity 1) }) := by
      unfold MemStorage.addToCart
      simp [hf, h2]
    rw [hred]
    refine ⟨hwid, rfl, ?_, updateCartItemQuantity_counter .., ?_⟩
    · rw [h1]
      exact List.length_map ..
    · intro c hc hcid
      rw [h1]
      have : (fun c => if c.id == ex.id
          then { w with quantity := jsAdd ex.quantity (jsOrInt i.quantity 1) } else c) c = c := by
        simp [hcid]
      rw [show c = (fun c => if c.id == ex.id
          then { w with quantity := jsAdd ex.quantity (jsOrInt i.quantity 1) } else c) c
        from this.symm]
      exact List.mem_map_of_mem _ hc
  · intro hf
    unfold MemStorage.addToCart
    simp [hf]

/-- The pre-existing cart item of claim C4's counterexample and witness. -/
def c4Item : CartItem :=
  { id := 1, userId := OwnerId.undef, productId := 1, size := "M", quantity := some 2 }

/-- A store holding exactly `c4Item`. -/
def c4State : MemStorage :=
  { users := [], products := [], cart := [c4Item], reviews := [],
    currentUserId := 1, currentProductId := 1, currentCartItemId := 2, currentReviewId := 1 }

/-- The request of claim C4's counterexample: same owner, product and size as
`c4Item`, with the quantity explicitly provided as 0 (which the POST /cart
schema admits: `z.number().optional().default(1)` accepts an explicit 0). -/
def c4Insert : InsertCartItem :=
  { userId := OwnerId.undef, productId := 1, size := "M", quantity := some 0 }

/-- Claim C4, counterexample.  As stated, the claim requires the matching
item's quantity to be incremented by the requested quantity — here 0, leaving
2.  The code computes `quantity || 1`, where 0 is falsy, and stores 2 + 1 = 3. -/
theorem c4_counterexample :
    (c4State.addToCart c4Insert).2.quantity = some 3 ∧
    some (3 : Int) ≠ some (2 + 0 : Int) := by
  refine ⟨by decide, by decide⟩

/-- Witness for the amended claim C4: the merge branch at the concrete state
`c4State`, with the lookup hypothesis discharged by computation. -/
theorem c4_witness :
    (c4State.addToCart c4Insert).2.id = c4Item.id ∧
    (c4State.addToCart c4Insert).2.quantity =
      jsAdd c4Item.quantity (jsOrInt c4Insert.quantity 1) ∧
    (c4State.addToCart c4Insert).1.cart.length = c4State.cart.length ∧
    (c4State.addToCart c4Insert).1.currentCartItemId = c4State.currentCartItemId ∧
    (∀ c ∈ c4State.cart, c.id ≠ c4Item.id → c ∈ (c4State.addToCart c4Insert).1.cart) :=
  (c4_addToCart_amended c4State c4Insert).1 c4Item (by decide)

/-- Claim C5: `listCartItems()` without a user id returns exactly the cart
items whose owner is strictly absent, `listCartItems u` for a (nonzero) user
id returns exactly the items owned by `u`, and the two result sets are
disjoint.  (User ids are assigned from 1, so 0 is never a user id; the code
tests the argument for truthiness, so 0 would fall into the guest branch.) -/
theorem c5_getCartItems (s : MemStorage) (u : Int) (hu : u ≠ 0) :
    (∀ it, it ∈ s.getCartItems none ↔ it ∈ s.cart ∧ it.userId = OwnerId.undef) ∧
    (∀ it, it ∈ s.getCartItems (some u) ↔ it ∈ s.cart ∧ it.userId = OwnerId.user u) ∧
    (∀ it, it ∈ s.getCartItems none → it ∉ s.getCartItems (some u)) := by
  have ht : truthyNum (some u) = true := by
    simp [truthyNum, hu]
  have hg1 : s.getCartItems none =
      s.cart.filter (fun item => item.userId == OwnerId.undef) := rfl
  have hg2 : s.getCartItems (some u) =
      s.cart.filter (fun item => item.userId == OwnerId.user u) := by
    unfold MemStorage.getCartItems
    rw [if_pos ht]
    rfl
  refine ⟨?_, ?_, ?_⟩
  · intro it
    rw [hg1, List.mem_filter]
    simp
  · intro it
    rw [hg2, List.mem_filter]
    simp
  · intro it h1 h2
    rw [hg1, List.mem_filter] at h1
    rw [hg2, List.mem_filter] at h2
    have e1 : it.userId = OwnerId.undef := by simpa using h1.2
    have e2 : it.userId = OwnerId.user u := by simpa using h2.2
    rw [e1] at e2
    exact OwnerId.noConfusion e2

/-- The guest-owned item of claims C5/C6's witnesses. -/
def c5GuestItem : CartItem :=
  { id := 1, userId := OwnerId.undef, productId := 1, size := "M", quantity := some 1 }

/-- The user-owned item of claims C5/C6's witnesses. -/
def c5UserItem : CartItem :=
  { id := 2, userId := OwnerId.user 5, productId := 1, size := "L", quantity := some 2 }

/-- A store holding one guest item and one item owned by user 5. -/
def c5State : MemStorage :=
  { users := [], products := [], cart := [c5GuestItem, c5UserItem], reviews := [],
    currentUserId := 1, currentProductId := 1, currentCartItemId := 3, currentReviewId := 1 }

/-- Witness for claim C5 at the concrete store `c5State` and user id 5,
instantiated at both items. -/
theorem c5_witness :
    (c5GuestItem ∈ c5State.getCartItems none ↔
      c5GuestItem ∈ c5State.cart ∧ c5GuestItem.userId = OwnerId.undef) ∧
    (c5UserItem ∈ c5State.getCartItems (some 5) ↔
      c5UserItem ∈ c5State.cart ∧ c5UserItem.userId = OwnerId.user 5) ∧
    (c5GuestItem ∈ c5State.getCartItems none →
      c5GuestItem ∉ c5State.getCartItems (some 5)) :=
  ⟨(c5_getCartItems c5State 5 (by decide)).1 c5GuestItem,
    (c5_getCartItems c5State 5 (by decide)).2.1 c5UserItem,
    (c5_getCartItems c5State 5 (by decide)).2.2 c5GuestItem⟩

/-- Claim C6: `clearCart()` without a user id removes exactly the owner-absent
items, keeps every other cart item and leaves all other collections and
counters unchanged; `clearCart u` for a (nonzero) user id removes exactly the
items owned by `u`; both calls return true even when nothing matched. -/
theorem c6_clearCart (s : MemStorage) (u : Int) (hu : u ≠ 0) :
    (s.clearCart none).2 = true ∧
    (∀ it, it ∈ (s.clearCart none).1.cart ↔
      it ∈ s.cart ∧ it.userId ≠ OwnerId.undef) ∧
    (s.clearCart none).1.products = s.products ∧
    (s.clearCart none).1.users = s.users ∧
    (s.clearCart none).1.reviews = s.reviews ∧
    (s.clearCart none).1.currentCartItemId = s.currentCartItemId ∧
    (s.clearCart (some u)).2 = true ∧
    (∀ it, it ∈ (s.clearCart (some u)).1.cart ↔
      it ∈ s.cart ∧ it.userId ≠ OwnerId.user u) := by
  have ht : truthyNum (some u) = true := by
    simp [truthyNum, hu]
  have hc2 : s.clearCart (some u) =
      ({ s with cart := s.cart.filter (fun item => item.userId != OwnerId.user u) }, true) := by
    unfold MemStorage.clearCart
    rw [if_pos ht]
    rfl
  refine ⟨rfl, ?_, rfl, rfl, rfl, rfl, ?_, ?_⟩
  · intro it
    rw [show (s.clearCart none).1.cart =
        s.cart.filter (fun item => item.userId != OwnerId.undef) from rfl,
      List.mem_filter]
    simp
  · rw [hc2]
  · intro it
    rw [hc2, List.mem_filter]
    simp

/-- Witness for claim C6 at `c5State` (one guest item, one item of user 5). -/
theorem c6_witness :
    (c5State.clearCart none).2 = true ∧
    (c5UserItem ∈ (c5State.clearCart none).1.cart ↔
      c5UserItem ∈ c5State.cart ∧ c5UserItem.userId ≠ OwnerId.undef) ∧
    (c5State.clearCart none).1.products = c5State.products ∧
    (c5State.clearCart none).1.users = c5State.users ∧
    (c5State.clearCart none).1.reviews = c5State.reviews ∧
    (c5State.clearCart none).1.currentCartItemId = c5State.currentCartItemId ∧
    (c5State.clearCart (some 5)).2 = true ∧
    (c5GuestItem ∈ (c5State.clearCart (some 5)).1.cart ↔
      c5GuestItem ∈ c5State.cart ∧ c5GuestItem.userId ≠ OwnerId.user 5) := by
  obtain ⟨a, b, c, d, e, f, g, hlast⟩ := c6_clearCart c5State 5 (by decide)
  exact ⟨a, b c5UserItem, c, d, e, f, g, hlast c5GuestItem⟩

/-- Claim C7: `verifyAdmin` returns true exactly when a user with the given
username exists whose stored plaintext password is exactly the given one and
whose admin flag is set (stated under username uniqueness, which the seed
state satisfies and which the data model declares); in the seeded initial
state this holds exactly for ("admin", "admin123"). -/
theorem c7_verifyAdmin (s : MemStorage) (u p : String)
    (h : (s.users.map (fun x => x.username)).Nodup) :
    (s.verifyAdmin u p = true ↔
      ∃ w ∈ s.users, w.username = u ∧ w.password = p ∧ w.isAdmin = true) ∧
    (seededStorage.verifyAdmin u p = true ↔ (u = "admin" ∧ p = "admin123")) := by
  constructor
  · constructor
    · intro hv
      unfold MemStorage.verifyAdmin MemStorage.getUserByUsername at hv
      rcases hf : s.users.find? (fun x => x.username == u) with _ | w
      · rw [hf] at hv
        exact absurd hv (by simp)
      · rw [hf] at hv
        have hmem := List.mem_of_find?_eq_some hf
        have hname := List.find?_some hf
        simp only [Bool.and_eq_true] at hv
        exact ⟨w, hmem, by simpa using hname, by simpa using hv.1, hv.2⟩
    · rintro ⟨w, hwmem, hwu, hwp, hwa⟩
      unfold MemStorage.verifyAdmin MemStorage.getUserByUsername
      have hs : (s.users.find? (fun x => x.username == u)).isSome := by
        rw [List.find?_isSome]
        exact ⟨w, hwmem, by simp [hwu]⟩
      rcases hf : s.users.find? (fun x => x.username == u) with _ | v
      · rw [hf] at hs
        simp at hs
      · rw [hf]
        have hvmem := List.mem_of_find?_eq_some hf
        have hvu : v.username = u := by simpa using List.find?_some hf
        have hveq : v = w := List.inj_on_of_nodup_map h hvmem hwmem (by rw [hvu, hwu])
        rw [hveq]
        simp [hwp, hwa]
  · have hseed : seededStorage.users =
        [{ id := 1, username := "admin", password := "admin123", isAdmin := true }] := rfl
    constructor
    · intro hv
      unfold MemStorage.verifyAdmin MemStorage.getUserByUsername at hv
      rw [hseed] at hv
      by_cases hu2 : (({ id := 1, username := "admin",
                         password := "admin123",
                         isAdmin := true } : User).username == u) = true
      · rw [@List.find?_cons_of_pos User (fun x => x.username == u) _ [] hu2] at hv
        simp only [Bool.and_eq_true] at hv
        have h1 : ("admin" : String) = u := by simpa using hu2
        have hph : ("admin123" : String) = p := by simpa using hv.1
        exact ⟨h1.symm, hph.symm⟩
      · rw [@List.find?_cons_of_neg User (fun x => x.username == u) _ [] hu2] at hv
        simp at hv
    · rintro ⟨rfl, rfl⟩
      decide

/-- Witness for claim C7 at the seeded store's admin credentials, with the
username-uniqueness hypothesis discharged by computation. -/
theorem c7_witness :
    (seededStorage.verifyAdmin "admin" "admin123" = true ↔
      ∃ w ∈ seededStorage.users,
        w.username = "admin" ∧ w.password = "admin123" ∧ w.isAdmin = true) ∧
    (seededStorage.verifyAdmin "admin" "admin123" = true ↔
      (("admin" : String) = "admin" ∧ ("admin123" : String) = "admin123")) :=
  c7_verifyAdmin seededStorage "admin" "admin123" (by decide)

/-- `updateProduct` leaves the review id counter alone. -/
theorem updateProduct_currentReviewId (s : MemStorage) (id : Nat) (u : ProductPatch) :
    (s.updateProduct id u).1.currentReviewId = s.currentReviewId := by
  unfold MemStorage.updateProduct
  split <;> rfl

/-- `updateProductRatings` leaves the review id counter alone. -/
theorem updateProductRatings_currentReviewId (s : MemStorage) :
    s.updateProductRatings.currentReviewId = s.currentReviewId := by
  unfold MemStorage.updateProductRatings
  split
  · rfl
  · by_cases h : s.approvedList.length = 0
    · simp [h]
    · simp [h, updateProduct_currentReviewId]

/-- Claim C8: `createReview` returns a review with the freshly assigned
identifier, comment defaulted to the empty string when not provided, approval
forced to true regardless of input, and the supplied current timestamp; the
review is stored, the counter advances, and the product rating recomputation
runs (the approved count is positive, so the first product carries the
recomputed mean and count).  A returned review with `approved = false` is
never produced. -/
theorem c8_createReview (s : MemStorage) (i : InsertReview) (now : String)
    (h : s.products ≠ []) :
    (s.createReview i now).2.approved = true ∧
    (s.createReview i now).2.id = s.currentReviewId ∧
    (s.createReview i now).2.createdAt = now ∧
    (s.createReview i now).2.comment = i.comment.getD "" ∧
    (s.createReview i now).2.name = i.name ∧
    (s.createReview i now).2.rating = i.rating ∧
    (s.createReview i now).2 ∈ (s.createReview i now).1.reviews ∧
    (s.createReview i now).1.currentReviewId = s.currentReviewId + 1 ∧
    0 < (s.createReview i now).1.approvedList.length ∧
    ∃ q, (s.createReview i now).1.products.head? = some q ∧
      q.rating = averageRatingString
          (MemStorage.reviewsTotalRating (s.createReview i now).1.approvedList)
          (s.createReview i now).1.approvedList.length ∧
      q.reviewCount = ((s.createReview i now).1.approvedList.length : Int) := by
  obtain ⟨p, hp⟩ : ∃ p, s.products.head? = some p := by
    rcases hl : s.products with _ | ⟨p0, tl⟩
    · exact absurd hl h
    · exact ⟨p0, rfl⟩
  have hrev : (s.createReview i now).1.reviews =
      s.reviews ++ [(s.createReview i now).2] := by
    simp only [MemStorage.createReview]
    rw [updateProductRatings_reviews]
  have hpos : 0 < (s.createReview i now).1.approvedList.length := by
    rw [createReview_approvedList s i now]
    simp
  have hcrid : (s.createReview i now).1.currentReviewId = s.currentReviewId + 1 := by
    simp only [MemStorage.createReview]
    rw [updateProductRatings_currentReviewId]
  have hch : ConsistentHead (s.createReview i now).1 := by
    simp only [MemStorage.createReview]
    exact updateProductRatings_consistent _ p hp
  obtain ⟨q, hq1, hq2⟩ := hch
  have hqq := hq2 hpos
  refine ⟨rfl, rfl, rfl, rfl, rfl, rfl, ?_, hcrid, hpos, q, hq1, hqq.1, hqq.2⟩
  rw [hrev]
  exact List.mem_append_right _ (by simp)

/-- Witness for claim C8: a concrete review creation on the seeded store, with
the nonempty-products hypothesis discharged by computation. -/
theorem c8_witness :
    (seededStorage.createReview { name := "alice", rating := 5, comment := none }
      "2024-01-01T00:00:00.000Z").2.approved = true ∧
    (seededStorage.createReview { name := "alice", rating := 5, comment := none }
      "2024-01-01T00:00:00.000Z").2.id = seededStorage.currentReviewId ∧
    (seededStorage.createReview { name := "alice", rating := 5, comment := none }
      "2024-01-01T00:00:00.000Z").2.createdAt = "2024-01-01T00:00:00.000Z" ∧
    (seededStorage.createReview { name := "alice", rating := 5, comment := none }
      "2024-01-01T00:00:00.000Z").2.comment =
        (none : Option String).getD "" ∧
    (seededStorage.createReview { name := "alice", rating := 5, comment := none }
      "2024-01-01T00:00:00.000Z").2.name = "alice" ∧
    (seededStorage.createReview { name := "alice", rating := 5, comment := none }
      "2024-01-01T00:00:00.000Z").2.rating = 5 ∧
    (seededStorage.createReview { name := "alice", rating := 5, comment := none }
      "2024-01-01T00:00:00.000Z").2 ∈
      (seededStorage.createReview { name := "alice", rating := 5, comment := none }
        "2024-01-01T00:00:00.000Z").1.reviews ∧
    (seededStorage.createReview { name := "alice", rating := 5, comment := none }
      "2024-01-01T00:00:00.000Z").1.currentReviewId = seededStorage.currentReviewId + 1 ∧
    0 < (seededStorage.createReview { name := "alice", rating := 5, comment := none }
      "2024-01-01T00:00:00.000Z").1.approvedList.length ∧
    ∃ q, (seededStorage.createReview { name := "alice", rating := 5, comment := none }
        "2024-01-01T00:00:00.000Z").1.products.head? = some q ∧
      q.rating = averageRatingString
          (MemStorage.reviewsTotalRating
            (seededStorage.createReview { name := "alice", rating := 5, comment := none }
              "2024-01-01T00:00:00.000Z").1.approvedList)
          (seededStorage.createReview { name := "alice", rating := 5, comment := none }
            "2024-01-01T00:00:00.000Z").1.approvedList.length ∧
      q.reviewCount = ((seededStorage.createReview
          { name := "alice", rating := 5, comment := none }
          "2024-01-01T00:00:00.000Z").1.approvedList.length : Int) :=
  c8_createReview seededStorage { name := "alice", rating := 5, comment := none }
    "2024-01-01T00:00:00.000Z" (by decide)

/-- Claim C9: `deleteReview` removes the review and returns true exactly when
one with the given id exists — in that case the rating recomputation runs on
the shrunken review map — and returns false otherwise, leaving the entire
repository state unchanged on a missing id. -/
theorem c9_deleteReview (s : MemStorage) (id : Nat) :
    ((∃ r ∈ s.reviews, r.id = id) →
      (s.deleteReview id).2 = true ∧
      (s.deleteReview id).1 =
        ({ s with reviews := s.reviews.filter (fun r => r.id != id) } :
          MemStorage).updateProductRatings ∧
      (∀ r ∈ (s.deleteReview id).1.reviews, r.id ≠ id) ∧
      (∀ r ∈ s.reviews, r.id ≠ id → r ∈ (s.deleteReview id).1.reviews)) ∧
    ((¬ ∃ r ∈ s.reviews, r.id = id) →
      (s.deleteReview id).2 = false ∧ (s.deleteReview id).1 = s) := by
  constructor
  · intro hex
    have hany : s.reviews.any (fun r => r.id == id) = true := by
      rw [List.any_eq_true]
      obtain ⟨r, hr, hrid⟩ := hex
      exact ⟨r, hr, by simp [hrid]⟩
    have h2 : (s.deleteReview id).2 = true := by
      simp [MemStorage.deleteReview, hany]
    have h1 : (s.deleteReview id).1 =
        ({ s with reviews := s.reviews.filter (fun r => r.id != id) } :
          MemStorage).updateProductRatings := by
      simp [MemStorage.deleteReview, hany]
    refine ⟨h2, h1, ?_, ?_⟩
    · intro r hr
      rw [h1, updateProductRatings_reviews] at hr
      have := (List.mem_filter.mp hr).2
      simpa using this
    · intro r hr hrid
      rw [h1, updateProductRatings_reviews]
      exact List.mem_filter.mpr ⟨hr, by simpa using hrid⟩
  · intro hnex
    have hany : s.reviews.any (fun r => r.id == id) = false := by
      rw [List.any_eq_false]
      intro r hr hcon
      exact hnex ⟨r, hr, by simpa using hcon⟩
    have hfe : s.reviews.filter (fun r => r.id != id) = s.reviews := by
      refine List.filter_eq_self.mpr ?_
      intro r hr
      have := List.any_eq_false.mp hany r hr
      simpa using this
    constructor
    · simp [MemStorage.deleteReview, hany]
    · have h1 : (s.deleteReview id).1 =
          { s with reviews := s.reviews.filter (fun r => r.id != id) } := by
        simp [MemStorage.deleteReview, hany]
      rw [h1, hfe]

/-- The store of claim C9's witness: the seeded store plus one review. -/
def c9State : MemStorage :=
  (seededStorage.createReview { name := "bob", rating := 4, comment := none } "t1").1

/-- Witness for claim C9: deleting the sole review (id 1) of `c9State`, with
the existence hypothesis discharged by computation. -/
theorem c9_witness :
    (c9State.deleteReview 1).2 = true ∧
    (c9State.deleteReview 1).1 =
      ({ c9State with reviews := c9State.reviews.filter (fun r => r.id != 1) } :
        MemStorage).updateProductRatings ∧
    (∀ r ∈ (c9State.deleteReview 1).1.reviews, r.id ≠ 1) ∧
    (∀ r ∈ c9State.reviews, r.id ≠ 1 → r ∈ (c9State.deleteReview 1).1.reviews) :=
  (c9_deleteReview c9State 1).1 (by decide)

/-- Claim C10: a cart item stored with owner explicitly `null` (a value the
`CartItem` type and the POST /cart schema both admit) is invisible to every
ownership scope: `getCartItems` without a user id matches only owner
`undefined` and excludes it, `getCartItems u` excludes it for every `u`,
`clearCart` — with or without a user id — never deletes it, and only
`removeFromCart` by its id removes it. -/
theorem c10_null_owner (s : MemStorage) (it : CartItem)
    (h1 : it ∈ s.cart) (h2 : it.userId = OwnerId.null) :
    it ∉ s.getCartItems none ∧
    (∀ u : Int, it ∉ s.getCartItems (some u)) ∧
    it ∈ (s.clearCart none).1.cart ∧
    (∀ u : Int, it ∈ (s.clearCart (some u)).1.cart) ∧
    (s.removeFromCart it.id).2 = true ∧
    (∀ c ∈ (s.removeFromCart it.id).1.cart, c.id ≠ it.id) := by
  refine ⟨?_, ?_, ?_, ?_, ?_, ?_⟩
  · intro hmem
    have hm2 : it ∈ s.cart.filter (fun item => item.userId == OwnerId.undef) := hmem
    have := (List.mem_filter.mp hm2).2
    rw [h2] at this
    simp at this
  · intro u hmem
    unfold MemStorage.getCartItems at hmem
    by_cases ht : truthyNum (some u) = true
    · rw [if_pos ht] at hmem
      have := (List.mem_filter.mp hmem).2
      rw [h2] at this
      simp at this
    · rw [if_neg ht] at hmem
      have := (List.mem_filter.mp hmem).2
      rw [h2] at this
      simp at this
  · show it ∈ s.cart.filter (fun item => item.userId != OwnerId.undef)
    refine List.mem_filter.mpr ⟨h1, ?_⟩
    rw [h2]
    simp
  · intro u
    unfold MemStorage.clearCart
    by_cases ht : truthyNum (some u) = true
    · rw [if_pos ht]
      refine List.mem_filter.mpr ⟨h1, ?_⟩
      rw [h2]
      simp
    · rw [if_neg ht]
      refine List.mem_filter.mpr ⟨h1, ?_⟩
      rw [h2]
      simp
  · show (s.cart.any (fun c => c.id == it.id)) = true
    rw [List.any_eq_true]
    exact ⟨it, h1, by simp⟩
  · intro c hc
    have := (List.mem_filter.mp hc).2
    simpa using this

/-- The null-owned cart item of claim C10's witness. -/
def c10Item : CartItem :=
  { id := 7, userId := OwnerId.null, productId := 1, size := "S", quantity := some 1 }

/-- A store holding `c10Item` alongside a guest item and a user item. -/
def c10State : MemStorage :=
  { users := [], products := [], cart := [c5GuestItem, c5UserItem, c10Item], reviews := [],
    currentUserId := 1, currentProductId := 1, currentCartItemId := 8, currentReviewId := 1 }

/-- Witness for claim C10 at the concrete store `c10State`, with both
hypotheses discharged by computation. -/
theorem c10_witness :
    c10Item ∉ c10State.getCartItems none ∧
    (∀ u : Int, c10Item ∉ c10State.getCartItems (some u)) ∧
    c10Item ∈ (c10State.clearCart none).1.cart ∧
    (∀ u : Int, c10Item ∈ (c10State.clearCart (some u)).1.cart) ∧
    (c10State.removeFromCart c10Item.id).2 = true ∧
    (∀ c ∈ (c10State.removeFromCart c10Item.id).1.cart, c.id ≠ c10Item.id) :=
  c10_null_owner c10State c10Item (by decide) (by decide)
